import Mathlib

/-!
Shallow embedding of the dbt-datahub governance core
(`src/dbt_datahub_governance`): the validation report data model, the URN
mapper, the glob-based model selection, the batch status fetch, the rule
engine with per-(rule, model) error isolation, and the
`no_deprecated_upstream` built-in rule.  Python strings are Lean `String`s;
Python `str.upper()`/`str.lower()` are modelled by ASCII case mapping on the
character list; Python dicts that are only iterated or looked up are
modelled as association lists in insertion order.
-/

namespace DbtGov

/-- ASCII uppercase mapping, modelling Python `str.upper()`. -/
def strUpper (s : String) : String := ⟨s.data.map Char.toUpper⟩

/-- ASCII lowercase mapping, modelling Python `str.lower()`. -/
def strLower (s : String) : String := ⟨s.data.map Char.toLower⟩

/-- Source `models/governance.py` `ValidationSeverity`. -/
inductive ValidationSeverity where
  | error
  | warning
  | info
deriving DecidableEq, Repr

/-- JSON-like values for the `details` bag of a validation result
(`dict[str, Any]` in the source; only these shapes are ever stored). -/
inductive DVal where
  | str : String → DVal
  | nat : Nat → DVal
  | bool : Bool → DVal
  | null : DVal
  | arr : List DVal → DVal
  | obj : List (String × DVal) → DVal
deriving Repr

/-- Source `models/governance.py` `ValidationResult`. -/
structure ValidationResult where
  rule_name : String
  model_name : String
  model_unique_id : String
  passed : Bool
  severity : ValidationSeverity
  message : String
  details : List (String × DVal) := []
deriving Repr

/-- Source `models/governance.py` `ValidationReport`. -/
structure ValidationReport where
  results : List ValidationResult := []
  total_models_checked : Nat := 0
  total_checks : Nat := 0
  errors : Nat := 0
  warnings : Nat := 0
  passed : Nat := 0
deriving Repr

/-- Source `ValidationReport.add_result`: append the result and bump
`total_checks`; then an if/elif chain bumps exactly one of `passed`,
`errors`, `warnings` — a failing result of `info` severity bumps none. -/
def ValidationReport.add_result (rep : ValidationReport) (r : ValidationResult) :
    ValidationReport :=
  { rep with
    results := rep.results ++ [r]
    total_checks := rep.total_checks + 1
    passed := if r.passed then rep.passed + 1 else rep.passed
    errors :=
      if !r.passed && r.severity == ValidationSeverity.error then rep.errors + 1
      else rep.errors
    warnings :=
      if !r.passed && r.severity == ValidationSeverity.warning then rep.warnings + 1
      else rep.warnings }

/-- Source `ValidationReport.has_errors`. -/
def ValidationReport.has_errors (rep : ValidationReport) : Bool := rep.errors > 0

/-- Source `ValidationReport.has_warnings`. -/
def ValidationReport.has_warnings (rep : ValidationReport) : Bool := rep.warnings > 0

/-- The empty report produced by `ValidationReport()`. -/
def emptyReport : ValidationReport := {}

/-- Number of results in a sequence that fail with `info` severity —
exactly the results `add_result` counts in no bucket. -/
def countFailedInfo (rs : List ValidationResult) : Nat :=
  (rs.filter (fun r => !r.passed && r.severity == ValidationSeverity.info)).length

lemma add_result_counts (rep : ValidationReport) (r : ValidationResult) :
    (rep.add_result r).errors + (rep.add_result r).warnings + (rep.add_result r).passed
        + (if !r.passed && r.severity == ValidationSeverity.info then 1 else 0)
      = rep.errors + rep.warnings + rep.passed + 1 ∧
    (rep.add_result r).total_checks = rep.total_checks + 1 := by
  refine ⟨?_, rfl⟩
  simp only [ValidationReport.add_result]
  cases hp : r.passed <;> cases hs : r.severity <;> simp [hp, hs] <;> omega

lemma foldl_add_result_counts (rs : List ValidationResult) (rep : ValidationReport) :
    let rep' := rs.foldl ValidationReport.add_result rep
    rep'.errors + rep'.warnings + rep'.passed + countFailedInfo rs
        = rep.errors + rep.warnings + rep.passed
          + (rep'.total_checks - rep.total_checks) ∧
    rep'.total_checks = rep.total_checks + rs.length := by
  induction rs generalizing rep with
  | nil => simp [countFailedInfo]
  | cons r rs ih =>
    obtain ⟨h1, h2⟩ := add_result_counts rep r
    obtain ⟨ih1, ih2⟩ := ih (rep.add_result r)
    refine ⟨?_, by simpa [h2, Nat.add_assoc, Nat.add_comm 1 rs.length] using ih2⟩
    have hcount : countFailedInfo (r :: rs)
        = (if !r.passed && r.severity == ValidationSeverity.info then 1 else 0)
          + countFailedInfo rs := by
      simp only [countFailedInfo, List.filter]
      cases h : (!r.passed && r.severity == ValidationSeverity.info) <;>
        simp [h, Nat.add_comm]
    simp only [List.foldl_cons] at *
    omega

/-- Source `models/dbt_models.py` `DbtModel` (fields used by the engine, mapper
and the claimed rules; columns/meta/config bags are not consulted by any
embedded operation). -/
structure DbtModel where
  unique_id : String
  name : String
  database : Option String := none
  schema : String := ""
  description : Option String := none
  path : String := ""
  depends_on : List String := []
  tags : List String := []
deriving Repr

/-- Source `models/dbt_models.py` `DbtManifest`: `models` is a Python dict
`unique_id → DbtModel`, modelled as an insertion-ordered association
list with distinct keys. -/
structure DbtManifest where
  models : List (String × DbtModel) := []
deriving Repr

/-- Source `DbtManifest.get_model`: dict lookup by unique id. -/
def DbtManifest.get_model (m : DbtManifest) (uid : String) : Option DbtModel :=
  (m.models.find? (fun p => p.1 == uid)).map (·.2)

/-- Source `DbtManifest.get_model_by_name`: first model (in insertion order)
whose `name` equals the argument. -/
def DbtManifest.get_model_by_name (m : DbtManifest) (name : String) : Option DbtModel :=
  (m.models.find? (fun p => p.2.name == name)).map (·.2)

/-- Source `models/governance.py` `DatasetGovernanceStatus` (the `exists` field
is spelled `exists_` because `exists` is reserved in Lean). -/
structure DatasetGovernanceStatus where
  urn : String
  exists_ : Bool
  has_owner : Bool := false
  has_description : Bool := false
  has_domain : Bool := false
  has_tags : Bool := false
  is_deprecated : Bool := false
  owners : List String := []
  domain : Option String := none
  tags : List String := []
  description : Option String := none
  deprecation_note : Option String := none
deriving Repr

/-- The DataHub client interface the engine consumes
(`datahub/client.py`): a batch fetch returning a dict `urn → status`,
and a single fetch. Both are black boxes to the engine. -/
structure DataHubClient where
  get_governance_status_batch : List String → List (String × DatasetGovernanceStatus)
  get_governance_status : String → DatasetGovernanceStatus

/-- Python `a or b` on strings: `b` when `a` is empty, else `a`. -/
def pyOr (a b : String) : String := if a == "" then b else a

/-- An `Option String` coerced the way Python treats `None` in an `or`
chain: `None` behaves like the empty string. -/
def optStr (o : Option String) : String := o.getD ""

/-- Source `datahub/urn_mapper.py` `UrnMapper` configuration state.
`UrnMapper.init` below is the constructor; it lowercases the platform. -/
structure UrnMapper where
  platform : String
  env : String
  platform_instance : Option String := none
  custom_database : Option String := none
  custom_schema : Option String := none
deriving Repr

/-- Source `UrnMapper.__init__`: stores `platform.lower()` and the remaining
arguments unchanged. -/
def UrnMapper.init (platform env : String) (platform_instance : Option String)
    (custom_database : Option String) (custom_schema : Option String) : UrnMapper :=
  { platform := strLower platform
    env := env
    platform_instance := platform_instance
    custom_database := custom_database
    custom_schema := custom_schema }

/-- Source `UrnMapper.UPPERCASE_PLATFORMS`. -/
def UPPERCASE_PLATFORMS : List String := ["snowflake"]

/-- Source `UrnMapper.LOWERCASE_PLATFORMS`. -/
def LOWERCASE_PLATFORMS : List String := ["postgres", "mysql"]

/-- Source `UrnMapper._normalize_name`. -/
def UrnMapper.normalize_name (m : UrnMapper) (name : String) : String :=
  if UPPERCASE_PLATFORMS.contains m.platform then strUpper name
  else if LOWERCASE_PLATFORMS.contains m.platform then strLower name
  else name

/-- Effective database: `self.custom_database or model.database or ""`. -/
def UrnMapper.eff_database (m : UrnMapper) (model : DbtModel) : String :=
  pyOr (pyOr (optStr m.custom_database) (optStr model.database)) ""

/-- Effective schema: `self.custom_schema or model.schema`. -/
def UrnMapper.eff_schema (m : UrnMapper) (model : DbtModel) : String :=
  pyOr (optStr m.custom_schema) model.schema

/-- Source `UrnMapper.get_dataset_name`: normalize the non-empty components,
then join; `bigquery` always joins all three, the named warehouse family
and the default branch both join `database.schema.name` when the
database is non-empty and `schema.name` otherwise. -/
def UrnMapper.get_dataset_name (m : UrnMapper) (model : DbtModel) : String :=
  let database := m.eff_database model
  let schema := m.eff_schema model
  let name := model.name
  let database := if database == "" then "" else m.normalize_name database
  let schema := m.normalize_name schema
  let name := m.normalize_name name
  if m.platform == "bigquery" then
    database ++ "." ++ schema ++ "." ++ name
  else if ["snowflake", "redshift", "postgres", "databricks"].contains m.platform then
    if database == "" then schema ++ "." ++ name
    else database ++ "." ++ schema ++ "." ++ name
  else
    if database == "" then schema ++ "." ++ name
    else database ++ "." ++ schema ++ "." ++ name

/-- Source `UrnMapper._build_urn_manual` (the DataHub SDK path of `build_urn`
emits the same template, so this is the urn construction). -/
def UrnMapper.build_urn_manual (m : UrnMapper) (dataset_name : String) : String :=
  match m.platform_instance with
  | some inst =>
      "urn:li:dataset:(urn:li:dataPlatform:" ++ m.platform ++ "," ++ inst ++ "."
        ++ dataset_name ++ "," ++ m.env ++ ")"
  | none =>
      "urn:li:dataset:(urn:li:dataPlatform:" ++ m.platform ++ "," ++ dataset_name
        ++ "," ++ m.env ++ ")"

/-- Source `UrnMapper.model_to_urn`. -/
def UrnMapper.model_to_urn (m : UrnMapper) (model : DbtModel) : String :=
  m.build_urn_manual (m.get_dataset_name model)

/-- The literal part of the `parse_urn` regex before the first group. -/
def URN_HEAD : String := "urn:li:dataset:(urn:li:dataPlatform:"

/-- Whether `big` starts with `small` (on character lists). -/
def leadsWith : List Char → List Char → Bool
  | [], _ => true
  | _ :: _, [] => false
  | a :: as, b :: bs => a == b && leadsWith as bs

/-- Result of `parse_urn` (the Python dict with keys
`platform`/`name`/`env`). -/
structure ParsedUrn where
  platform : String
  name : String
  env : String
deriving DecidableEq, Repr

/-- The run of characters before the first occurrence of `stop`, and the
characters after it; `none` when `stop` never occurs. -/
def chompRun (stop : Char) : List Char → Option (List Char × List Char)
  | [] => none
  | c :: rest =>
    if c = stop then some ([], rest)
    else
      match chompRun stop rest with
      | some (g, r) => some (c :: g, r)
      | none => none

/-- One regex group `([^,]+),` / `([^)]+)\)`: the maximal run of
characters different from `stop`, which must be non-empty and followed
by `stop`; returns the group and the remaining characters. -/
def chompGroup (stop : Char) (l : List Char) : Option (List Char × List Char) :=
  match chompRun stop l with
  | some (g, r) => if g.isEmpty then none else some (g, r)
  | none => none

/-- Source `parse_urn`: `re.match` of
`urn:li:dataset:\(urn:li:dataPlatform:([^,]+),([^,]+),([^)]+)\)` — three
non-empty groups delimited by the first `,`, the next `,` and the next
`)`; every component empty when the pattern does not match. -/
def parse_urn (urn : String) : ParsedUrn :=
  if leadsWith URN_HEAD.data urn.data then
    match chompGroup ',' (urn.data.drop URN_HEAD.data.length) with
    | some (g1, r1) =>
      match chompGroup ',' r1 with
      | some (g2, r2) =>
        match chompGroup ')' r2 with
        | some (g3, _) => ⟨⟨g1⟩, ⟨g2⟩, ⟨g3⟩⟩
        | none => ⟨"", "", ""⟩
      | none => ⟨"", "", ""⟩
    | none => ⟨"", "", ""⟩
  else ⟨"", "", ""⟩

/-- Scan for the closing `]` of a glob character class; returns the class
body and the remaining pattern (Python `fnmatch.translate` scanning). -/
def globFindClose : List Char → Option (List Char × List Char)
  | [] => none
  | c :: t =>
    if c = ']' then some ([], t)
    else
      match globFindClose t with
      | some (b, r) => some (c :: b, r)
      | none => none

/-- The part of class parsing after a leading `!`: a `]` right after the
`!` is a literal member, then everything up to the closing `]`. -/
def splitClassTail (l : List Char) : Option (Bool × List Char × List Char) :=
  match l with
  | [] => none
  | d :: rest2 =>
    if d = ']' then
      match globFindClose rest2 with
      | some (b, r) => some (true, ']' :: b, r)
      | none => none
    else
      match globFindClose (d :: rest2) with
      | some (b, r) => some (true, b, r)
      | none => none

/-- Interpret the pattern after a `[`: optional leading `!` negation, a
`]` right after that is a literal member, then everything up to the
closing `]`; `none` when the class is unterminated (the `[` is then a
literal character, as in `fnmatch.translate`). -/
def splitClass (l : List Char) : Option (Bool × List Char × List Char) :=
  match l with
  | [] => none
  | c :: rest =>
    if c = '!' then splitClassTail rest
    else if c = ']' then
      match globFindClose rest with
      | some (b, r) => some (false, ']' :: b, r)
      | none => none
    else
      match globFindClose (c :: rest) with
      | some (b, r) => some (false, b, r)
      | none => none

/-- Membership of a character in a class body, with `a-b` ranges; a `-`
without both endpoints is a literal. -/
def classHas : List Char → Char → Bool
  | [], _ => false
  | a :: '-' :: b :: rest, c => (a ≤ c && c ≤ b) || classHas rest c
  | a :: rest, c => (a == c) || classHas rest c

lemma globFindClose_length :
    ∀ l b r, globFindClose l = some (b, r) → r.length < l.length := by
  intro l
  induction l with
  | nil => intro b r h; simp [globFindClose] at h
  | cons c t ih =>
    intro b r h
    simp only [globFindClose] at h
    by_cases hc : c = ']'
    · rw [if_pos hc] at h
      simp only [Option.some.injEq, Prod.mk.injEq] at h
      simp [← h.2]
    · rw [if_neg hc] at h
      rcases hg : globFindClose t with _ | ⟨b', r'⟩ <;> rw [hg] at h
      · exact absurd h (by simp)
      · simp only [Option.some.injEq, Prod.mk.injEq] at h
        have := ih b' r' hg
        rw [← h.2]
        simp only [List.length_cons]
        omega

lemma splitClassTail_length :
    ∀ l n b r, splitClassTail l = some (n, b, r) → r.length < l.length := by
  intro l n b r h
  match l with
  | [] => simp [splitClassTail] at h
  | d :: rest2 =>
    simp only [splitClassTail] at h
    by_cases hd : d = ']'
    · rw [if_pos hd] at h
      rcases hg : globFindClose rest2 with _ | ⟨b', r'⟩ <;> rw [hg] at h
      · exact absurd h (by simp)
      · have := globFindClose_length _ _ _ hg
        simp only [Option.some.injEq, Prod.mk.injEq] at h
        rw [← h.2.2]
        simp only [List.length_cons]
        omega
    · rw [if_neg hd] at h
      rcases hg : globFindClose (d :: rest2) with _ | ⟨b', r'⟩ <;> rw [hg] at h
      · exact absurd h (by simp)
      · have := globFindClose_length _ _ _ hg
        simp only [Option.some.injEq, Prod.mk.injEq] at h
        rw [← h.2.2]
        exact this

lemma splitClass_length :
    ∀ l n b r, splitClass l = some (n, b, r) → r.length < l.length := by
  intro l n b r h
  match l with
  | [] => simp [splitClass] at h
  | c :: rest =>
    simp only [splitClass] at h
    by_cases hc : c = '!'
    · rw [if_pos hc] at h
      have := splitClassTail_length _ _ _ _ h
      simp only [List.length_cons]
      omega
    · rw [if_neg hc] at h
      by_cases hcj : c = ']'
      · rw [if_pos hcj] at h
        rcases hg : globFindClose rest with _ | ⟨b', r'⟩ <;> rw [hg] at h
        · exact absurd h (by simp)
        · have := globFindClose_length _ _ _ hg
          simp only [Option.some.injEq, Prod.mk.injEq] at h
          rw [← h.2.2]
          simp only [List.length_cons]
          omega
      · rw [if_neg hcj] at h
        rcases hg : globFindClose (c :: rest) with _ | ⟨b', r'⟩ <;> rw [hg] at h
        · exact absurd h (by simp)
        · have := globFindClose_length _ _ _ hg
          simp only [Option.some.injEq, Prod.mk.injEq] at h
          rw [← h.2.2]
          exact this

/-- One token of a translated glob pattern (what one loop iteration of
`fnmatch.translate` appends to the regex). -/
inductive GTok where
  | star
  | ques
  | lit (c : Char)
  | cls (neg : Bool) (body : List Char)
deriving DecidableEq, Repr

/-- Tokenize a glob pattern (`fnmatch.translate` loop): `*`, `?`,
`[...]` classes — an unterminated `[` is a literal — everything else
literal.  The `fuel` argument only bounds the recursion; every step
consumes at least one pattern character, so `fuel = l.length` (used by
`globToks` below) never runs out. -/
def globToksF : Nat → List Char → List GTok
  | _, [] => []
  | 0, _ :: _ => []
  | fuel + 1, c :: p =>
    if c = '*' then GTok.star :: globToksF fuel p
    else if c = '?' then GTok.ques :: globToksF fuel p
    else if c = '[' then
      match splitClass p with
      | some (neg, body, rest) => GTok.cls neg body :: globToksF fuel rest
      | none => GTok.lit '[' :: globToksF fuel p
    else GTok.lit c :: globToksF fuel p

/-- Tokenized form of a glob pattern. -/
def globToks (l : List Char) : List GTok := globToksF l.length l

/-- Match a token list against a string, anchored at both ends
(`re.match` of the translated pattern, which ends in `\Z`).  Each step
consumes a token or a character, so `fuel = p.length + s.length` (used
by `globMatchT` below) never runs out. -/
def globMatchF : Nat → List GTok → List Char → Bool
  | _, [], s => s.isEmpty
  | 0, _ :: _, _ => false
  | fuel + 1, GTok.star :: p', [] => globMatchF fuel p' []
  | fuel + 1, GTok.star :: p', c :: s' =>
    globMatchF fuel p' (c :: s') || globMatchF fuel (GTok.star :: p') s'
  | _ + 1, GTok.ques :: _, [] => false
  | fuel + 1, GTok.ques :: p', _ :: s' => globMatchF fuel p' s'
  | _ + 1, GTok.cls _ _ :: _, [] => false
  | fuel + 1, GTok.cls neg body :: p', c :: s' =>
    (classHas body c != neg) && globMatchF fuel p' s'
  | _ + 1, GTok.lit _ :: _, [] => false
  | fuel + 1, GTok.lit a :: p', b :: s' => (a == b) && globMatchF fuel p' s'

/-- Full match of a token list against a string. -/
def globMatchT (p : List GTok) (s : List Char) : Bool :=
  globMatchF (p.length + s.length) p s

/-- Python `fnmatch.fnmatch(name, pattern)` (POSIX `normcase` is the identity,
so this is `fnmatchcase`: translate the pattern, then full-match). -/
def fnmatch (name pat : String) : Bool := globMatchT (globToks pat.data) name.data

lemma globToksF_irrel :
    ∀ fuel1 fuel2 l, l.length ≤ fuel1 → l.length ≤ fuel2 →
      globToksF fuel1 l = globToksF fuel2 l := by
  intro fuel1
  induction fuel1 with
  | zero =>
    intro fuel2 l h1 _
    match l, fuel2 with
    | [], 0 => rfl
    | [], fuel2 + 1 => rfl
    | c :: p, _ => simp at h1
  | succ f1 ih =>
    intro fuel2 l h1 h2
    match l, fuel2 with
    | [], 0 => rfl
    | [], fuel2 + 1 => rfl
    | c :: p, 0 => simp at h2
    | c :: p, f2 + 1 =>
      simp only [List.length_cons, Nat.add_le_add_iff_right] at h1 h2
      simp only [globToksF]
      by_cases hs : c = '*'
      · simp only [if_pos hs, ih f2 p h1 h2]
      by_cases hq : c = '?'
      · simp only [if_neg hs, if_pos hq, ih f2 p h1 h2]
      by_cases hb : c = '['
      · simp only [if_neg hs, if_neg hq, if_pos hb]
        rcases hg : splitClass p with _ | ⟨neg, body, rest⟩
        · simp only [ih f2 p h1 h2]
        · have hr := splitClass_length _ _ _ _ hg
          simp only [ih f2 rest (by omega) (by omega)]
      · simp only [if_neg hs, if_neg hq, if_neg hb, ih f2 p h1 h2]

lemma globMatchF_irrel :
    ∀ fuel1 fuel2 p s, p.length + s.length ≤ fuel1 → p.length + s.length ≤ fuel2 →
      globMatchF fuel1 p s = globMatchF fuel2 p s := by
  intro fuel1
  induction fuel1 with
  | zero =>
    intro fuel2 p s h1 _
    match p, s, fuel2 with
    | [], s, 0 => rfl
    | [], s, f2 + 1 => rfl
    | t :: p', s, _ => simp at h1
  | succ f1 ih =>
    intro fuel2 p s h1 h2
    match p, s, fuel2 with
    | [], s, 0 => rfl
    | [], s, f2 + 1 => rfl
    | t :: p', s, 0 => simp at h2
    | t :: p', s, f2 + 1 =>
      simp only [List.length_cons] at h1 h2
      match t, s with
      | GTok.star, [] =>
        simp only [globMatchF]
        exact ih f2 p' [] (by simp; omega) (by simp; omega)
      | GTok.star, c :: s' =>
        simp only [globMatchF, List.length_cons] at *
        rw [ih f2 p' (c :: s') (by simp; omega) (by simp; omega),
          ih f2 (GTok.star :: p') s' (by simp; omega) (by simp; omega)]
      | GTok.ques, [] => simp only [globMatchF]
      | GTok.ques, c :: s' =>
        simp only [globMatchF, List.length_cons] at *
        rw [ih f2 p' s' (by omega) (by omega)]
      | GTok.cls neg body, [] => simp only [globMatchF]
      | GTok.cls neg body, c :: s' =>
        simp only [globMatchF, List.length_cons] at *
        rw [ih f2 p' s' (by omega) (by omega)]
      | GTok.lit a, [] => simp only [globMatchF]
      | GTok.lit a, c :: s' =>
        simp only [globMatchF, List.length_cons] at *
        rw [ih f2 p' s' (by omega) (by omega)]

/-- Source `models/governance.py` `GovernanceConfig` (the per-rule
configuration map feeds `_initialize_rules`, whose result is the
engine's rule list carried directly below). -/
structure GovernanceConfig where
  target_platform : String := "snowflake"
  environment : String := "PROD"
  platform_instance : Option String := none
  fail_on_warnings : Bool := false
  include_patterns : List String := ["*"]
  exclude_patterns : List String := []
deriving Repr

/-- A governance rule as the engine consumes it: name, configured
severity, and a `validate` operation that may raise (modelled by
`Except`, the error carrying `str(e)`). -/
structure Rule where
  rule_name : String
  severity : ValidationSeverity
  validate : DbtModel → DatasetGovernanceStatus → DbtManifest →
    List (String × DatasetGovernanceStatus) → Except String ValidationResult

/-- Source `rules/engine.py` `GovernanceEngine`; `rules` is the list produced
by `_initialize_rules` (enabled rules found in the registry, in
configuration order). -/
structure GovernanceEngine where
  config : GovernanceConfig
  client : DataHubClient
  manifest : DbtManifest
  rules : List Rule

/-- The engine's `self.urn_mapper` built in `__init__`. -/
def GovernanceEngine.urn_mapper (eng : GovernanceEngine) : UrnMapper :=
  UrnMapper.init eng.config.target_platform eng.config.environment
    eng.config.platform_instance none none

/-- Source `GovernanceEngine._should_include_model`: any matching exclude
pattern (against name or path) wins, else at least one include pattern
must match. -/
def should_include_model (cfg : GovernanceConfig) (model : DbtModel) : Bool :=
  if cfg.exclude_patterns.any (fun pat => fnmatch model.name pat || fnmatch model.path pat)
  then false
  else cfg.include_patterns.any (fun pat => fnmatch model.name pat || fnmatch model.path pat)

/-- Python `set.add`, for a set modelled as a duplicate-free list in
insertion order. -/
def addUrn (acc : List String) (u : String) : List String :=
  if acc.contains u then acc else acc ++ [u]

/-- Source `GovernanceEngine._fetch_all_governance_statuses`, urn-collection
part: for each model add its urn and the urn of every direct dependency
that resolves in the manifest. -/
def urns_to_fetch (mapper : UrnMapper) (manifest : DbtManifest)
    (models : List DbtModel) : List String :=
  models.foldl (fun acc model =>
    model.depends_on.foldl (fun acc2 dep_id =>
      match manifest.get_model dep_id with
      | some dep_model => addUrn acc2 (mapper.model_to_urn dep_model)
      | none => acc2) (addUrn acc (mapper.model_to_urn model))) []

/-- Python `all_statuses.get(urn, DatasetGovernanceStatus(urn=urn, exists=False))`. -/
def lookupStatus (all : List (String × DatasetGovernanceStatus)) (urn : String) :
    DatasetGovernanceStatus :=
  match all.find? (fun p => p.1 == urn) with
  | some p => p.2
  | none => { urn := urn, exists_ := false }

/-- The forced outcome the engine records when a rule raises `e` on a
model (`except Exception` branch of `validate`). -/
def forced_error_result (rule : Rule) (model : DbtModel) (e : String) : ValidationResult :=
  { rule_name := rule.rule_name
    model_name := model.name
    model_unique_id := model.unique_id
    passed := false
    severity := ValidationSeverity.error
    message := "Rule execution error: " ++ e
    details := [("error", DVal.str e)] }

/-- One try/except-guarded rule evaluation in the engine loop. -/
def run_rule (rule : Rule) (model : DbtModel) (status : DatasetGovernanceStatus)
    (manifest : DbtManifest) (all : List (String × DatasetGovernanceStatus)) :
    ValidationResult :=
  match rule.validate model status manifest all with
  | Except.ok r => r
  | Except.error e => forced_error_result rule model e

/-- The models `validate()` selects from the manifest. -/
def GovernanceEngine.selected_models (eng : GovernanceEngine) : List DbtModel :=
  (eng.manifest.models.map (·.2)).filter (fun m => should_include_model eng.config m)

/-- The status map `validate()` fetches in its single batch call. -/
def GovernanceEngine.batch_statuses (eng : GovernanceEngine) :
    List (String × DatasetGovernanceStatus) :=
  eng.client.get_governance_status_batch
    (urns_to_fetch eng.urn_mapper eng.manifest eng.selected_models)

/-- A selected model's own status as `validate()` looks it up. -/
def GovernanceEngine.model_status (eng : GovernanceEngine) (m : DbtModel) :
    DatasetGovernanceStatus :=
  lookupStatus eng.batch_statuses (eng.urn_mapper.model_to_urn m)

/-- The outcome `validate()` records for one (rule, model) pair. -/
def GovernanceEngine.outcome (eng : GovernanceEngine) (r : Rule) (m : DbtModel) :
    ValidationResult :=
  run_rule r m (eng.model_status m) eng.manifest eng.batch_statuses

/-- Source `GovernanceEngine.validate`. -/
def GovernanceEngine.validate (eng : GovernanceEngine) : ValidationReport :=
  let models := eng.selected_models
  let report : ValidationReport := { total_models_checked := models.length }
  let all_statuses := eng.batch_statuses
  models.foldl (fun rep model =>
    let status := lookupStatus all_statuses (eng.urn_mapper.model_to_urn model)
    eng.rules.foldl
      (fun rep2 rule => rep2.add_result (run_rule rule model status eng.manifest all_statuses))
      rep) report

/-- Python dict assignment `d[k] = v` on an association list. -/
def assocUpsert (l : List (String × DatasetGovernanceStatus)) (k : String)
    (v : DatasetGovernanceStatus) : List (String × DatasetGovernanceStatus) :=
  if l.any (·.1 == k) then l.map (fun p => if p.1 == k then (k, v) else p)
  else l ++ [(k, v)]

/-- Source `GovernanceEngine.validate_single_model`. -/
def GovernanceEngine.validate_single_model (eng : GovernanceEngine)
    (model_name : String) : ValidationReport :=
  match eng.manifest.get_model_by_name model_name with
  | none =>
    ValidationReport.add_result {}
      { rule_name := "model_lookup"
        model_name := model_name
        model_unique_id := ""
        passed := false
        severity := ValidationSeverity.error
        message := "Model not found in manifest: " ++ model_name }
  | some model =>
    let report : ValidationReport := { total_models_checked := 1 }
    let urn := eng.urn_mapper.model_to_urn model
    let status := eng.client.get_governance_status urn
    let all_statuses := model.depends_on.foldl (fun acc dep_id =>
      match eng.manifest.get_model dep_id with
      | some dep_model =>
        let dep_urn := eng.urn_mapper.model_to_urn dep_model
        assocUpsert acc dep_urn (eng.client.get_governance_status dep_urn)
      | none => acc) [(urn, status)]
    eng.rules.foldl
      (fun rep rule => rep.add_result (run_rule rule model status eng.manifest all_statuses))
      report

/-- Whether `needle` occurs as a contiguous substring of `hay`
(Python `needle in hay`). -/
def containsSub (needle hay : List Char) : Bool :=
  leadsWith needle hay ||
    match hay with
    | [] => false
    | _ :: t => containsSub needle t

/-- The upstream matching of `builtin.py`:
`dep.name.upper() in urn.upper() or dep.name.lower() in urn.lower()`. -/
def fuzzy_name_match (name urn : String) : Bool :=
  containsSub (strUpper name).data (strUpper urn).data ||
    containsSub (strLower name).data (strLower urn).data

/-- One entry of the `deprecated_upstreams` details list. -/
def mkDeprecatedEntry (name urn : String) (note : Option String) : DVal :=
  DVal.obj [("name", DVal.str name), ("urn", DVal.str urn),
    ("note", match note with | some s => DVal.str s | none => DVal.null)]

/-- The offending-upstream list `NoDeprecatedUpstreamRule.validate`
accumulates: for each dependency that resolves in the manifest, every
fetched (urn, status) pair with `exists` and `is_deprecated` whose urn
fuzzy-matches the dependency's name. -/
def deprecated_upstreams (model : DbtModel) (manifest : DbtManifest)
    (all_statuses : List (String × DatasetGovernanceStatus)) :
    List (String × String × Option String) :=
  model.depends_on.flatMap (fun dep_id =>
    match manifest.get_model dep_id with
    | some dep_model =>
      all_statuses.filterMap (fun p =>
        if p.2.exists_ && p.2.is_deprecated then
          if fuzzy_name_match dep_model.name p.1 then
            some (dep_model.name, p.1, p.2.deprecation_note)
          else none
        else none)
    | none => [])

/-- Python `sep.join(items)`. -/
def joinSep (sep : String) : List String → String
  | [] => ""
  | [x] => x
  | x :: y :: xs => x ++ sep ++ joinSep sep (y :: xs)

/-- Source `NoDeprecatedUpstreamRule.validate` (the model's own status is not
consulted by this rule). -/
def no_deprecated_upstream_validate (severity : ValidationSeverity) (model : DbtModel)
    (_status : DatasetGovernanceStatus) (manifest : DbtManifest)
    (all_statuses : List (String × DatasetGovernanceStatus)) : ValidationResult :=
  let deps := deprecated_upstreams model manifest all_statuses
  if deps.isEmpty then
    { rule_name := "no_deprecated_upstream"
      model_name := model.name
      model_unique_id := model.unique_id
      passed := true
      severity := severity
      message := "No deprecated upstream dependencies found"
      details := [("checked_dependencies", DVal.nat model.depends_on.length)] }
  else
    { rule_name := "no_deprecated_upstream"
      model_name := model.name
      model_unique_id := model.unique_id
      passed := false
      severity := severity
      message := "Model depends on deprecated datasets: " ++ joinSep ", " (deps.map (·.1))
      details := [("deprecated_upstreams",
        DVal.arr (deps.map (fun d => mkDeprecatedEntry d.1 d.2.1 d.2.2)))] }

/-! ## Claim theorems -/

/-- C1, counterexample: adding to a fresh report a single result with
`passed = false` and severity `info` makes `total_checks` equal 1 while
`errors + warnings + passed` stays 0, so the claimed invariant
`errors + warnings + passed == total_checks` fails after that
`add_result` call. -/
theorem C1_counterexample :
    ¬ ((emptyReport.add_result
          { rule_name := "require_owner", model_name := "dim_customers",
            model_unique_id := "model.p.dim_customers", passed := false,
            severity := ValidationSeverity.info, message := "no owner" }).errors
        + (emptyReport.add_result
          { rule_name := "require_owner", model_name := "dim_customers",
            model_unique_id := "model.p.dim_customers", passed := false,
            severity := ValidationSeverity.info, message := "no owner" }).warnings
        + (emptyReport.add_result
          { rule_name := "require_owner", model_name := "dim_customers",
            model_unique_id := "model.p.dim_customers", passed := false,
            severity := ValidationSeverity.info, message := "no owner" }).passed
      = (emptyReport.add_result
          { rule_name := "require_owner", model_name := "dim_customers",
            model_unique_id := "model.p.dim_customers", passed := false,
            severity := ValidationSeverity.info, message := "no owner" }).total_checks) := by
  decide

/-- C1 (amended): after any sequence of `add_result` calls on a fresh
report, `errors + warnings + passed` plus the number of added results
with `passed = false` and severity `info` equals `total_checks`; the
spec's equality therefore holds exactly when no failing info-severity
result has been added. -/
theorem C1_report_counter_invariant (rs : List ValidationResult) :
    (rs.foldl ValidationReport.add_result emptyReport).errors
        + (rs.foldl ValidationReport.add_result emptyReport).warnings
        + (rs.foldl ValidationReport.add_result emptyReport).passed
        + countFailedInfo rs
      = (rs.foldl ValidationReport.add_result emptyReport).total_checks := by
  obtain ⟨h1, h2⟩ := foldl_add_result_counts rs emptyReport
  simp only [emptyReport] at h1 h2 ⊢
  omega

/-- C5: a model is selected iff it matches no exclude pattern (on name
or path) and matches at least one include pattern (on name or path);
in particular a model matching both an exclude and an include pattern
is excluded, since the left conjunct already fails. -/
theorem C5_selection_filter (cfg : GovernanceConfig) (model : DbtModel) :
    should_include_model cfg model = true ↔
      ((∀ pat ∈ cfg.exclude_patterns,
          ¬(fnmatch model.name pat = true ∨ fnmatch model.path pat = true)) ∧
        (∃ pat ∈ cfg.include_patterns,
          fnmatch model.name pat = true ∨ fnmatch model.path pat = true)) := by
  simp only [should_include_model]
  split
  · rename_i hex
    rw [List.any_eq_true] at hex
    obtain ⟨pat, hpat, hm⟩ := hex
    simp only [Bool.or_eq_true] at hm
    simp only [Bool.false_eq_true, false_iff]
    intro hAB
    exact absurd hm (hAB.1 pat hpat)
  · rename_i hex
    rw [Bool.not_eq_true, List.any_eq_false] at hex
    simp only [Bool.or_eq_true] at hex
    simp only [List.any_eq_true, Bool.or_eq_true]
    constructor
    · exact fun h => ⟨fun pat hp => hex pat hp, h⟩
    · exact fun h => h.2

/-- C4, counterexample: for platform `bigquery` and a model with no
database, the claimed join `schema.name` fails — the code
unconditionally joins `database.schema.name`, producing a leading dot. -/
theorem C4_counterexample :
    (UrnMapper.init "bigquery" "PROD" none none none).get_dataset_name
        { unique_id := "model.jaffle.users", name := "users", schema := "analytics" }
      ≠ "analytics.users" := by
  decide

/-- C4 (amended): for every platform other than `bigquery` the uniform
join rule holds — `database.schema.name` when the effective database is
non-empty, `schema.name` when it is empty (components normalized) —
with no per-platform deviation; for `bigquery` the code always joins
`database.schema.name`, even when the database is empty. -/
theorem C4_join_rule (platform env : String) (pi cdb csch : Option String)
    (model : DbtModel) :
    (strLower platform ≠ "bigquery" →
      (UrnMapper.init platform env pi cdb csch).get_dataset_name model =
        (let m := UrnMapper.init platform env pi cdb csch
         let db := if m.eff_database model == "" then ""
                   else m.normalize_name (m.eff_database model)
         let sch := m.normalize_name (m.eff_schema model)
         let nm := m.normalize_name model.name
         if db == "" then sch ++ "." ++ nm else db ++ "." ++ sch ++ "." ++ nm)) ∧
    (strLower platform = "bigquery" →
      (UrnMapper.init platform env pi cdb csch).get_dataset_name model =
        (let m := UrnMapper.init platform env pi cdb csch
         let db := if m.eff_database model == "" then ""
                   else m.normalize_name (m.eff_database model)
         let sch := m.normalize_name (m.eff_schema model)
         let nm := m.normalize_name model.name
         db ++ "." ++ sch ++ "." ++ nm)) := by
  have hplat : (UrnMapper.init platform env pi cdb csch).platform = strLower platform := rfl
  constructor
  · intro hne
    simp only [UrnMapper.get_dataset_name, hplat]
    rw [if_neg (by simpa using hne)]
    split <;> rfl
  · intro heq
    simp only [UrnMapper.get_dataset_name, hplat]
    rw [if_pos (by simpa using heq)]

/-- C4 witness: concrete instances of both branches of `C4_join_rule` —
a non-bigquery platform with empty database joins `schema.name`, and
`bigquery` with empty database produces the leading-dot join. -/
theorem C4_join_rule_witness :
    (UrnMapper.init "duckdb" "PROD" none none none).get_dataset_name
        { unique_id := "model.jaffle.users", name := "users", schema := "analytics" }
      = "analytics.users" ∧
    (UrnMapper.init "bigquery" "PROD" none none none).get_dataset_name
        { unique_id := "model.jaffle.users", name := "users", schema := "analytics" }
      = ".analytics.users" := by
  constructor
  · have h := (C4_join_rule "duckdb" "PROD" none none none
      { unique_id := "model.jaffle.users", name := "users", schema := "analytics" }).1
      (by decide)
    exact h.trans (by decide)
  · have h := (C4_join_rule "bigquery" "PROD" none none none
      { unique_id := "model.jaffle.users", name := "users", schema := "analytics" }).2
      (by decide)
    exact h.trans (by decide)

lemma mem_addUrn (acc : List String) (v u : String) :
    u ∈ addUrn acc v ↔ u ∈ acc ∨ u = v := by
  unfold addUrn
  split
  · rename_i h
    have hv : v ∈ acc := by simpa using h
    constructor
    · exact Or.inl
    · rintro (hu | rfl)
      · exact hu
      · exact hv
  · simp

lemma nodup_addUrn (acc : List String) (v : String) (h : acc.Nodup) :
    (addUrn acc v).Nodup := by
  unfold addUrn
  split
  · exact h
  · rename_i hc
    have hv : v ∉ acc := by simpa using hc
    simpa [List.nodup_append, h] using hv

/-- The inner dependency loop of `_fetch_all_governance_statuses`. -/
def depFold (mapper : UrnMapper) (manifest : DbtManifest) (deps : List String)
    (acc : List String) : List String :=
  deps.foldl (fun acc2 dep_id =>
    match manifest.get_model dep_id with
    | some dep_model => addUrn acc2 (mapper.model_to_urn dep_model)
    | none => acc2) acc

lemma mem_depFold (mapper : UrnMapper) (manifest : DbtManifest) (deps : List String)
    (acc : List String) (u : String) :
    u ∈ depFold mapper manifest deps acc ↔
      u ∈ acc ∨ ∃ dep ∈ deps, ∃ dm, manifest.get_model dep = some dm ∧
        mapper.model_to_urn dm = u := by
  induction deps generalizing acc with
  | nil => simp [depFold]
  | cons d ds ih =>
    simp only [depFold, List.foldl_cons] at *
    rcases hg : manifest.get_model d with _ | dm
    · rw [ih]
      constructor
      · rintro (h | ⟨dep, hdep, dm', hdm', hu⟩)
        · exact Or.inl h
        · exact Or.inr ⟨dep, List.mem_cons_of_mem _ hdep, dm', hdm', hu⟩
      · rintro (h | ⟨dep, hdep, dm', hdm', hu⟩)
        · exact Or.inl h
        · rcases List.mem_cons.mp hdep with rfl | hdep'
          · rw [hg] at hdm'; exact absurd hdm' (by simp)
          · exact Or.inr ⟨dep, hdep', dm', hdm', hu⟩
    · rw [ih]
      rw [mem_addUrn]
      constructor
      · rintro ((h | rfl) | ⟨dep, hdep, dm', hdm', hu⟩)
        · exact Or.inl h
        · exact Or.inr ⟨d, List.mem_cons_self _ _, dm, hg, rfl⟩
        · exact Or.inr ⟨dep, List.mem_cons_of_mem _ hdep, dm', hdm', hu⟩
      · rintro (h | ⟨dep, hdep, dm', hdm', hu⟩)
        · exact Or.inl (Or.inl h)
        · rcases List.mem_cons.mp hdep with rfl | hdep'
          · rw [hg] at hdm'
            injection hdm' with hdm'
            subst hdm'
            exact Or.inl (Or.inr hu.symm)
          · exact Or.inr ⟨dep, hdep', dm', hdm', hu⟩

lemma nodup_depFold (mapper : UrnMapper) (manifest : DbtManifest) (deps : List String)
    (acc : List String) (h : acc.Nodup) : (depFold mapper manifest deps acc).Nodup := by
  induction deps generalizing acc with
  | nil => simpa [depFold]
  | cons d ds ih =>
    simp only [depFold, List.foldl_cons] at *
    rcases hg : manifest.get_model d with _ | dm
    · exact ih acc h
    · exact ih _ (nodup_addUrn _ _ h)

lemma urns_to_fetch_eq_fold (mapper : UrnMapper) (manifest : DbtManifest)
    (models : List DbtModel) :
    urns_to_fetch mapper manifest models =
      models.foldl (fun acc model =>
        depFold mapper manifest model.depends_on (addUrn acc (mapper.model_to_urn model)))
        [] := rfl

lemma mem_urns_fold (mapper : UrnMapper) (manifest : DbtManifest)
    (models : List DbtModel) (acc : List String) (u : String) :
    (u ∈ models.foldl (fun acc model =>
        depFold mapper manifest model.depends_on (addUrn acc (mapper.model_to_urn model)))
        acc) ↔
      u ∈ acc ∨ (∃ m ∈ models, mapper.model_to_urn m = u) ∨
        (∃ m ∈ models, ∃ dep ∈ m.depends_on, ∃ dm,
          manifest.get_model dep = some dm ∧ mapper.model_to_urn dm = u) := by
  induction models generalizing acc with
  | nil => simp
  | cons mo ms ih =>
    simp only [List.foldl_cons]
    rw [ih, mem_depFold, mem_addUrn]
    constructor
    · rintro (((h | rfl) | ⟨dep, hdep, dm, hdm, hu⟩) | h | h)
      · exact Or.inl h
      · exact Or.inr (Or.inl ⟨mo, List.mem_cons_self _ _, rfl⟩)
      · exact Or.inr (Or.inr ⟨mo, List.mem_cons_self _ _, dep, hdep, dm, hdm, hu⟩)
      · obtain ⟨m, hm, hu⟩ := h
        exact Or.inr (Or.inl ⟨m, List.mem_cons_of_mem _ hm, hu⟩)
      · obtain ⟨m, hm, rest⟩ := h
        exact Or.inr (Or.inr ⟨m, List.mem_cons_of_mem _ hm, rest⟩)
    · rintro (h | ⟨m, hm, hu⟩ | ⟨m, hm, dep, hdep, dm, hdm, hu⟩)
      · exact Or.inl (Or.inl (Or.inl h))
      · rcases List.mem_cons.mp hm with rfl | hm'
        · exact Or.inl (Or.inl (Or.inr hu.symm))
        · exact Or.inr (Or.inl ⟨m, hm', hu⟩)
      · rcases List.mem_cons.mp hm with rfl | hm'
        · exact Or.inl (Or.inr ⟨dep, hdep, dm, hdm, hu⟩)
        · exact Or.inr (Or.inr ⟨m, hm', dep, hdep, dm, hdm, hu⟩)

lemma nodup_urns_fold (mapper : UrnMapper) (manifest : DbtManifest)
    (models : List DbtModel) (acc : List String) (h : acc.Nodup) :
    (models.foldl (fun acc model =>
      depFold mapper manifest model.depends_on (addUrn acc (mapper.model_to_urn model)))
      acc).Nodup := by
  induction models generalizing acc with
  | nil => simpa
  | cons mo ms ih =>
    simp only [List.foldl_cons]
    exact ih _ (nodup_depFold _ _ _ _ (nodup_addUrn _ _ h))

/-- C6: the identifier list the engine hands to its single batch call
contains a urn iff it is the urn of a selected model or the urn of a
direct dependency of a selected model that resolves in the manifest
(unresolved dependency ids contribute nothing), and the list is
duplicate-free. -/
theorem C6_batch_urn_set (eng : GovernanceEngine) :
    (∀ u, u ∈ urns_to_fetch eng.urn_mapper eng.manifest eng.selected_models ↔
        ((∃ m ∈ eng.selected_models, eng.urn_mapper.model_to_urn m = u) ∨
          (∃ m ∈ eng.selected_models, ∃ dep ∈ m.depends_on, ∃ dm,
            eng.manifest.get_model dep = some dm ∧ eng.urn_mapper.model_to_urn dm = u))) ∧
    (urns_to_fetch eng.urn_mapper eng.manifest eng.selected_models).Nodup := by
  constructor
  · intro u
    rw [urns_to_fetch_eq_fold, mem_urns_fold]
    simp
  · rw [urns_to_fetch_eq_fold]
    exact nodup_urns_fold _ _ _ _ List.nodup_nil

lemma mem_deprecated_upstreams (model : DbtModel) (manifest : DbtManifest)
    (all_statuses : List (String × DatasetGovernanceStatus))
    (nm urn : String) (note : Option String) :
    (nm, urn, note) ∈ deprecated_upstreams model manifest all_statuses ↔
      ∃ dep_id ∈ model.depends_on, ∃ dm, manifest.get_model dep_id = some dm ∧
        dm.name = nm ∧ ∃ st, (urn, st) ∈ all_statuses ∧ st.exists_ = true ∧
          st.is_deprecated = true ∧ st.deprecation_note = note ∧
          fuzzy_name_match dm.name urn = true := by
  simp only [deprecated_upstreams, List.mem_flatMap]
  constructor
  · rintro ⟨dep, hdep, hmem⟩
    rcases hg : manifest.get_model dep with _ | dm <;> rw [hg] at hmem
    · exact absurd hmem (List.not_mem_nil _)
    · simp only [List.mem_filterMap] at hmem
      obtain ⟨p, hp, hcond⟩ := hmem
      by_cases h1 : (p.2.exists_ && p.2.is_deprecated) = true
      · rw [if_pos h1] at hcond
        by_cases h2 : fuzzy_name_match dm.name p.1 = true
        · rw [if_pos h2] at hcond
          simp only [Option.some.injEq, Prod.mk.injEq] at hcond
          obtain ⟨hnm, hurn, hnote⟩ := hcond
          simp only [Bool.and_eq_true] at h1
          refine ⟨dep, hdep, dm, hg, hnm, p.2, ?_, h1.1, h1.2, hnote, ?_⟩
          · rw [← hurn]; exact hp
          · rw [← hurn]; exact h2
        · rw [if_neg h2] at hcond; exact absurd hcond (by simp)
      · rw [if_neg h1] at hcond; exact absurd hcond (by simp)
  · rintro ⟨dep, hdep, dm, hg, hnm, st, hst, hex, hdepr, hnote, hfz⟩
    refine ⟨dep, hdep, ?_⟩
    rw [hg]
    simp only [List.mem_filterMap]
    refine ⟨(urn, st), hst, ?_⟩
    rw [if_pos (by simp [hex, hdepr]), if_pos hfz]
    rw [hnm, hnote]

lemma deprecated_upstreams_nil_iff (model : DbtModel) (manifest : DbtManifest)
    (all_statuses : List (String × DatasetGovernanceStatus)) :
    deprecated_upstreams model manifest all_statuses = [] ↔
      ∀ dep_id ∈ model.depends_on, ∀ dm, manifest.get_model dep_id = some dm →
        ∀ p ∈ all_statuses, p.2.exists_ = true → p.2.is_deprecated = true →
          fuzzy_name_match dm.name p.1 = false := by
  constructor
  · intro h dep hdep dm hg p hp hex hdepr
    by_contra hf
    rw [Bool.not_eq_false] at hf
    have hmem : (dm.name, p.1, p.2.deprecation_note)
        ∈ deprecated_upstreams model manifest all_statuses :=
      (mem_deprecated_upstreams model manifest all_statuses _ _ _).mpr
        ⟨dep, hdep, dm, hg, rfl, p.2, hp, hex, hdepr, rfl, hf⟩
    rw [h] at hmem
    exact absurd hmem (List.not_mem_nil _)
  · intro hall
    rcases hd : deprecated_upstreams model manifest all_statuses with _ | ⟨⟨nm, urn, note⟩, rest⟩
    · rfl
    · have hmem : (nm, urn, note) ∈ deprecated_upstreams model manifest all_statuses := by
        rw [hd]; exact List.mem_cons_self _ _
      obtain ⟨dep, hdep, dm, hg, hnm, st, hst, hex, hdepr, hnote, hfz⟩ :=
        (mem_deprecated_upstreams model manifest all_statuses _ _ _).mp hmem
      have hfalse := hall dep hdep dm hg (urn, st) hst hex hdepr
      rw [hfz] at hfalse
      exact absurd hfalse (by simp)

/-- C7: the `no_deprecated_upstream` rule passes iff no direct
dependency of the model that resolves in the manifest has its bare name
fuzzy-match (case-insensitive substring) any fetched identifier whose
status exists and is deprecated; when it fails, the details carry the
`deprecated_upstreams` list, one entry per offending (dependency,
identifier) pair with name, urn and deprecation note — and membership
in that list is exactly the offending-pair condition. -/
theorem C7_no_deprecated_upstream (severity : ValidationSeverity) (model : DbtModel)
    (status : DatasetGovernanceStatus) (manifest : DbtManifest)
    (all_statuses : List (String × DatasetGovernanceStatus)) :
    ((no_deprecated_upstream_validate severity model status manifest all_statuses).passed
        = true ↔
      ∀ dep_id ∈ model.depends_on, ∀ dm, manifest.get_model dep_id = some dm →
        ∀ p ∈ all_statuses, p.2.exists_ = true → p.2.is_deprecated = true →
          fuzzy_name_match dm.name p.1 = false) ∧
    ((no_deprecated_upstream_validate severity model status manifest all_statuses).passed
        = false →
      (no_deprecated_upstream_validate severity model status manifest all_statuses).details =
        [("deprecated_upstreams",
          DVal.arr ((deprecated_upstreams model manifest all_statuses).map
            (fun d => mkDeprecatedEntry d.1 d.2.1 d.2.2)))]) ∧
    (∀ nm urn note, (nm, urn, note) ∈ deprecated_upstreams model manifest all_statuses ↔
      ∃ dep_id ∈ model.depends_on, ∃ dm, manifest.get_model dep_id = some dm ∧
        dm.name = nm ∧ ∃ st, (urn, st) ∈ all_statuses ∧ st.exists_ = true ∧
          st.is_deprecated = true ∧ st.deprecation_note = note ∧
          fuzzy_name_match dm.name urn = true) := by
  refine ⟨?_, ?_, fun nm urn note => mem_deprecated_upstreams model manifest all_statuses nm urn note⟩
  · rw [← deprecated_upstreams_nil_iff model manifest all_statuses]
    simp only [no_deprecated_upstream_validate]
    split
    · rename_i hemp
      simpa using hemp
    · rename_i hemp
      simp only [Bool.false_eq_true, false_iff]
      simpa using hemp
  · intro hfail
    simp only [no_deprecated_upstream_validate] at hfail ⊢
    split at hfail
    · exact absurd hfail (by simp)
    · split
      · rename_i hemp hemp2
        exact absurd hemp2 hemp
      · rfl

/-- C7 witness: `fct_orders` depends on `dim_customers`; the fetched
statuses hold a deprecated identifier containing `DIM_CUSTOMERS`, with
note "Deprecated: use X" — the rule fails and the details carry exactly
that entry. -/
theorem C7_no_deprecated_upstream_witness :
    (no_deprecated_upstream_validate ValidationSeverity.error
        { unique_id := "model.jaffle.fct_orders", name := "fct_orders",
          schema := "marts", depends_on := ["model.jaffle.dim_customers"] }
        { urn := "u", exists_ := true }
        { models := [("model.jaffle.dim_customers",
            { unique_id := "model.jaffle.dim_customers", name := "dim_customers",
              schema := "marts" })] }
        [("urn:li:dataset:(urn:li:dataPlatform:snowflake,DB.SCH.DIM_CUSTOMERS,PROD)",
          { urn := "urn:li:dataset:(urn:li:dataPlatform:snowflake,DB.SCH.DIM_CUSTOMERS,PROD)",
            exists_ := true, is_deprecated := true,
            deprecation_note := some "Deprecated: use X" })]).passed = false ∧
    (no_deprecated_upstream_validate ValidationSeverity.error
        { unique_id := "model.jaffle.fct_orders", name := "fct_orders",
          schema := "marts", depends_on := ["model.jaffle.dim_customers"] }
        { urn := "u", exists_ := true }
        { models := [("model.jaffle.dim_customers",
            { unique_id := "model.jaffle.dim_customers", name := "dim_customers",
              schema := "marts" })] }
        [("urn:li:dataset:(urn:li:dataPlatform:snowflake,DB.SCH.DIM_CUSTOMERS,PROD)",
          { urn := "urn:li:dataset:(urn:li:dataPlatform:snowflake,DB.SCH.DIM_CUSTOMERS,PROD)",
            exists_ := true, is_deprecated := true,
            deprecation_note := some "Deprecated: use X" })]).details =
      [("deprecated_upstreams", DVal.arr [DVal.obj
        [("name", DVal.str "dim_customers"),
         ("urn", DVal.str
           "urn:li:dataset:(urn:li:dataPlatform:snowflake,DB.SCH.DIM_CUSTOMERS,PROD)"),
         ("note", DVal.str "Deprecated: use X")]])] := by
  have h := (C7_no_deprecated_upstream ValidationSeverity.error
    { unique_id := "model.jaffle.fct_orders", name := "fct_orders",
      schema := "marts", depends_on := ["model.jaffle.dim_customers"] }
    { urn := "u", exists_ := true }
    { models := [("model.jaffle.dim_customers",
        { unique_id := "model.jaffle.dim_customers", name := "dim_customers",
          schema := "marts" })] }
    [("urn:li:dataset:(urn:li:dataPlatform:snowflake,DB.SCH.DIM_CUSTOMERS,PROD)",
      { urn := "urn:li:dataset:(urn:li:dataPlatform:snowflake,DB.SCH.DIM_CUSTOMERS,PROD)",
        exists_ := true, is_deprecated := true,
        deprecation_note := some "Deprecated: use X" })]).2.1 (by decide)
  exact ⟨by decide, h.trans rfl⟩

/-- C8: for every engine and every name that is the name of no model in
the manifest, `validate_single_model` returns a report with
`total_models_checked = 0`, `has_errors = true`, and exactly one
outcome — the synthetic `model_lookup` failure with severity error; no
exception is possible (the operation is total). -/
theorem C8_single_model_unknown (eng : GovernanceEngine) (name : String)
    (h : ∀ p ∈ eng.manifest.models, p.2.name ≠ name) :
    (eng.validate_single_model name).total_models_checked = 0 ∧
    (eng.validate_single_model name).has_errors = true ∧
    (eng.validate_single_model name).results =
      [{ rule_name := "model_lookup", model_name := name, model_unique_id := "",
         passed := false, severity := ValidationSeverity.error,
         message := "Model not found in manifest: " ++ name }] := by
  have hfind : eng.manifest.models.find? (fun p => p.2.name == name) = none := by
    rw [List.find?_eq_none]
    intro p hp
    simpa using h p hp
  have hnone : eng.manifest.get_model_by_name name = none := by
    simp [DbtManifest.get_model_by_name, hfind]
  simp only [GovernanceEngine.validate_single_model, hnone]
  exact ⟨rfl, rfl, rfl⟩

/-- C8 witness: an engine over an empty manifest, queried for
"ghost_model". -/
theorem C8_single_model_unknown_witness :
    let eng : GovernanceEngine :=
      { config := {}
        client := ⟨fun _ => [], fun urn => { urn := urn, exists_ := false }⟩
        manifest := { models := [] }
        rules := [] }
    (eng.validate_single_model "ghost_model").total_models_checked = 0 ∧
    (eng.validate_single_model "ghost_model").has_errors = true ∧
    (eng.validate_single_model "ghost_model").results =
      [{ rule_name := "model_lookup", model_name := "ghost_model", model_unique_id := "",
         passed := false, severity := ValidationSeverity.error,
         message := "Model not found in manifest: " ++ "ghost_model" }] :=
  C8_single_model_unknown
    { config := {}
      client := ⟨fun _ => [], fun urn => { urn := urn, exists_ := false }⟩
      manifest := { models := [] }
      rules := [] }
    "ghost_model" (by simp)

lemma foldl_add_results (rs : List ValidationResult) (rep : ValidationReport) :
    (rs.foldl ValidationReport.add_result rep).results = rep.results ++ rs := by
  induction rs generalizing rep with
  | nil => simp
  | cons r rs ih =>
    rw [List.foldl_cons, ih]
    simp [ValidationReport.add_result]

lemma rules_fold_results (rules : List Rule) (f : Rule → ValidationResult)
    (rep : ValidationReport) :
    (rules.foldl (fun rep2 rule => rep2.add_result (f rule)) rep).results
      = rep.results ++ rules.map f := by
  rw [← List.foldl_map]
  exact foldl_add_results (rules.map f) rep

lemma validate_fold_results (eng : GovernanceEngine)
    (all : List (String × DatasetGovernanceStatus)) (models : List DbtModel)
    (rep : ValidationReport) :
    (models.foldl (fun rep model =>
        eng.rules.foldl (fun rep2 rule =>
          rep2.add_result (run_rule rule model
            (lookupStatus all (eng.urn_mapper.model_to_urn model)) eng.manifest all)) rep)
      rep).results
      = rep.results ++ models.flatMap (fun m => eng.rules.map (fun r =>
          run_rule r m (lookupStatus all (eng.urn_mapper.model_to_urn m)) eng.manifest all)) := by
  induction models generalizing rep with
  | nil => simp
  | cons mo ms ih =>
    rw [List.foldl_cons, ih, rules_fold_results]
    simp

lemma validate_results (eng : GovernanceEngine) :
    (eng.validate).results =
      eng.selected_models.flatMap (fun m => eng.rules.map (fun r => eng.outcome r m)) := by
  simp only [GovernanceEngine.validate]
  rw [validate_fold_results]
  rfl

/-- C2: the report of `validate()` holds exactly one outcome per
(selected model, enabled rule) pair, in order; a pair whose rule
evaluation raises `e` contributes exactly the forced failing
error-severity outcome carrying the error text in message and details,
while every pair whose rule evaluation returns normally contributes
exactly its normal outcome — so one raising rule never aborts the run
or changes any other pair's outcome. -/
theorem C2_rule_isolation (eng : GovernanceEngine) :
    (eng.validate).results =
      eng.selected_models.flatMap (fun m => eng.rules.map (fun r => eng.outcome r m)) ∧
    (∀ r m e, r.validate m (eng.model_status m) eng.manifest eng.batch_statuses
        = Except.error e →
      eng.outcome r m = forced_error_result r m e ∧
      (forced_error_result r m e).passed = false ∧
      (forced_error_result r m e).severity = ValidationSeverity.error ∧
      (forced_error_result r m e).message = "Rule execution error: " ++ e ∧
      (forced_error_result r m e).details = [("error", DVal.str e)]) ∧
    (∀ r m v, r.validate m (eng.model_status m) eng.manifest eng.batch_statuses
        = Except.ok v → eng.outcome r m = v) ∧
    (eng.validate).results.length = eng.selected_models.length * eng.rules.length := by
  refine ⟨validate_results eng, ?_, ?_, ?_⟩
  · intro r m e h
    refine ⟨?_, rfl, rfl, rfl, rfl⟩
    simp only [GovernanceEngine.outcome, run_rule, h]
  · intro r m v h
    simp only [GovernanceEngine.outcome, run_rule, h]
  · rw [validate_results eng]
    induction eng.selected_models with
    | nil => simp
    | cons mo ms ih =>
      simp only [List.flatMap_cons, List.length_append, List.length_map, ih,
        List.length_cons, Nat.mul_succ, Nat.succ_mul]
      omega

/-- C2 witness: a two-model, two-rule engine where the second rule
raises "boom" on model `m1` only: the run produces all four outcomes,
the broken pair degrades to the forced error outcome, and the healthy
rule on the same model keeps its normal outcome. -/
theorem C2_rule_isolation_witness :
    let okRule : Rule :=
      { rule_name := "ok_rule", severity := ValidationSeverity.warning,
        validate := fun m _ _ _ => Except.ok
          { rule_name := "ok_rule", model_name := m.name,
            model_unique_id := m.unique_id, passed := true,
            severity := ValidationSeverity.warning, message := "fine" } }
    let badRule : Rule :=
      { rule_name := "bad_rule", severity := ValidationSeverity.error,
        validate := fun m _ _ _ =>
          if m.name == "m1" then Except.error "boom"
          else Except.ok
            { rule_name := "bad_rule", model_name := m.name,
              model_unique_id := m.unique_id, passed := true,
              severity := ValidationSeverity.error, message := "fine" } }
    let m1 : DbtModel := { unique_id := "model.p.m1", name := "m1", schema := "s" }
    let m2 : DbtModel := { unique_id := "model.p.m2", name := "m2", schema := "s" }
    let eng : GovernanceEngine :=
      { config := {}
        client := ⟨fun _ => [], fun u => { urn := u, exists_ := false }⟩
        manifest := { models := [("model.p.m1", m1), ("model.p.m2", m2)] }
        rules := [okRule, badRule] }
    (eng.validate).results.length = 4 ∧
    eng.outcome badRule m1 = forced_error_result badRule m1 "boom" ∧
    eng.outcome okRule m1 =
      { rule_name := "ok_rule", model_name := "m1", model_unique_id := "model.p.m1",
        passed := true, severity := ValidationSeverity.warning, message := "fine" } := by
  intro okRule badRule m1 m2 eng
  refine ⟨?_, ?_, ?_⟩
  · exact ((C2_rule_isolation eng).2.2.2).trans (by decide)
  · exact ((C2_rule_isolation eng).2.1 badRule m1 "boom" rfl).1
  · exact (C2_rule_isolation eng).2.2.1 okRule m1 _ rfl

lemma leadsWith_append (l r : List Char) : leadsWith l (l ++ r) = true := by
  induction l with
  | nil => rfl
  | cons c t ih => simpa [leadsWith] using ih

lemma chompRun_spec (stop : Char) (g rest : List Char) (hstop : stop ∉ g) :
    chompRun stop (g ++ stop :: rest) = some (g, rest) := by
  induction g with
  | nil => simp [chompRun]
  | cons c t ih =>
    have hc : c ≠ stop := fun h => hstop (h ▸ List.mem_cons_self _ _)
    have ht : stop ∉ t := fun h => hstop (List.mem_cons_of_mem _ h)
    simp [chompRun, hc, ih ht]

lemma chompGroup_spec (stop : Char) (g rest : List Char) (hne : g ≠ [])
    (hstop : stop ∉ g) : chompGroup stop (g ++ stop :: rest) = some (g, rest) := by
  unfold chompGroup
  rw [chompRun_spec stop g rest hstop]
  simp [hne]

lemma string_data_ne_nil (s : String) (h : s ≠ "") : s.data ≠ [] := by
  intro hd
  exact h (by cases s; simp_all)

/-- C3, counterexample: a dataset name containing a comma breaks the
round trip — the first comma in the name slot is taken as the group
delimiter, so `parse_urn` returns name "a" and env "b,PROD" instead of
the components used to build the identifier. -/
theorem C3_counterexample :
    parse_urn ((UrnMapper.init "snowflake" "PROD" none none none).build_urn_manual "a,b")
      ≠ ⟨"snowflake", "a,b", "PROD"⟩ := by
  decide

lemma parse_build (pl slot env : String)
    (hpl : pl ≠ "") (hplc : ',' ∉ pl.data)
    (hslot : slot ≠ "") (hslotc : ',' ∉ slot.data)
    (henv : env ≠ "") (henvc : ')' ∉ env.data) :
    parse_urn ("urn:li:dataset:(urn:li:dataPlatform:" ++ pl ++ "," ++ slot
        ++ "," ++ env ++ ")")
      = ⟨pl, slot, env⟩ := by
  have hdata : (("urn:li:dataset:(urn:li:dataPlatform:" : String) ++ pl ++ ","
      ++ slot ++ "," ++ env ++ ")").data
      = URN_HEAD.data ++ (pl.data ++ ',' :: (slot.data ++ ',' :: (env.data ++ [')']))) := by
    simp only [String.data_append, List.append_assoc]
    rfl
  unfold parse_urn
  rw [hdata, leadsWith_append, if_pos rfl, List.drop_left]
  simp only [chompGroup_spec ',' pl.data (slot.data ++ ',' :: (env.data ++ [')']))
      (string_data_ne_nil _ hpl) hplc,
    chompGroup_spec ',' slot.data (env.data ++ [')'])
      (string_data_ne_nil _ hslot) hslotc,
    chompGroup_spec ')' env.data [] (string_data_ne_nil _ henv) henvc]

/-- C3 (amended): the round trip holds provided the lowercased platform
and the name slot are non-empty and comma-free and the environment is
non-empty and contains no `)`; the recovered platform is the lowercased
configured platform, and with a platform instance the recovered name is
`instance.name` (the template's name slot), not the bare dataset name. -/
theorem C3_roundtrip (platform env dataset_name : String) (inst : Option String)
    (slot : String)
    (hslotdef : slot = (match inst with
      | some i => i ++ "." ++ dataset_name
      | none => dataset_name))
    (hpl : strLower platform ≠ "")
    (hplc : ',' ∉ (strLower platform).data)
    (hslot : slot ≠ "") (hslotc : ',' ∉ slot.data)
    (henv : env ≠ "") (henvc : ')' ∉ env.data) :
    parse_urn ((UrnMapper.init platform env inst none none).build_urn_manual dataset_name)
      = ⟨strLower platform, slot, env⟩ := by
  have hmain := parse_build (strLower platform) slot env hpl hplc hslot hslotc henv henvc
  cases inst with
  | none =>
    have hstr : (UrnMapper.init platform env none none none).build_urn_manual dataset_name
        = "urn:li:dataset:(urn:li:dataPlatform:" ++ strLower platform ++ ","
          ++ slot ++ "," ++ env ++ ")" := by
      simp only at hslotdef
      subst hslotdef
      rfl
    rw [hstr, hmain]
  | some i =>
    have hstr : (UrnMapper.init platform env (some i) none none).build_urn_manual dataset_name
        = "urn:li:dataset:(urn:li:dataPlatform:" ++ strLower platform ++ ","
          ++ slot ++ "," ++ env ++ ")" := by
      simp only at hslotdef
      subst hslotdef
      apply String.ext
      simp [UrnMapper.build_urn_manual, UrnMapper.init, String.data_append,
        List.append_assoc]
    rw [hstr, hmain]

/-- C3 witness: a concrete round trip with a platform instance and
mixed-case platform — the recovered components are the lowercased
platform, the instance-prefixed name slot, and the environment. -/
theorem C3_roundtrip_witness :
    parse_urn ((UrnMapper.init "Snowflake" "PROD" (some "inst1") none none).build_urn_manual
        "ANALYTICS_DB.MARTS.DIM_CUSTOMERS")
      = ⟨"snowflake", "inst1.ANALYTICS_DB.MARTS.DIM_CUSTOMERS", "PROD"⟩ :=
  C3_roundtrip "Snowflake" "PROD" "ANALYTICS_DB.MARTS.DIM_CUSTOMERS" (some "inst1")
    "inst1.ANALYTICS_DB.MARTS.DIM_CUSTOMERS" (by decide)
    (by decide) (by decide) (by decide) (by decide) (by decide) (by decide)

/-- A string is case-stable under uppercasing (contains no lowercase
ASCII letter). -/
def isUpperStr (s : String) : Bool := strUpper s == s

/-- A string is case-stable under lowercasing (contains no uppercase
ASCII letter). -/
def isLowerStr (s : String) : Bool := strLower s == s

lemma char_toNat_ofNat (n : Nat) (h : n < 55296) : (Char.ofNat n).toNat = n := by
  unfold Char.ofNat
  rw [dif_pos]
  · rfl
  · exact Or.inl h

lemma char_toUpper_idem (c : Char) : c.toUpper.toUpper = c.toUpper := by
  simp only [Char.toUpper]
  by_cases h : c.toNat ≥ 97 ∧ c.toNat ≤ 122
  · rw [if_pos h]
    have hn : (Char.ofNat (c.toNat - 32)).toNat = c.toNat - 32 :=
      char_toNat_ofNat _ (by omega)
    rw [if_neg (by rw [hn]; omega)]
  · rw [if_neg h, if_neg h]

lemma char_toLower_idem (c : Char) : c.toLower.toLower = c.toLower := by
  simp only [Char.toLower]
  by_cases h : c.toNat ≥ 65 ∧ c.toNat ≤ 90
  · rw [if_pos h]
    have hn : (Char.ofNat (c.toNat + 32)).toNat = c.toNat + 32 :=
      char_toNat_ofNat _ (by omega)
    rw [if_neg (by rw [hn]; omega)]
  · rw [if_neg h, if_neg h]

lemma strUpper_idem (s : String) : strUpper (strUpper s) = strUpper s := by
  apply String.ext
  simp only [strUpper, List.map_map]
  exact List.map_congr_left (fun c _ => char_toUpper_idem c)

lemma strLower_idem (s : String) : strLower (strLower s) = strLower s := by
  apply String.ext
  simp only [strLower, List.map_map]
  exact List.map_congr_left (fun c _ => char_toLower_idem c)

lemma isUpperStr_strUpper (s : String) : isUpperStr (strUpper s) = true := by
  simp [isUpperStr, strUpper_idem]

lemma isLowerStr_strLower (s : String) : isLowerStr (strLower s) = true := by
  simp [isLowerStr, strLower_idem]

lemma strUpper_append (a b : String) : strUpper (a ++ b) = strUpper a ++ strUpper b := by
  apply String.ext
  simp [strUpper, String.data_append]

lemma strLower_append (a b : String) : strLower (a ++ b) = strLower a ++ strLower b := by
  apply String.ext
  simp [strLower, String.data_append]

lemma isUpperStr_append (a b : String) (ha : isUpperStr a = true)
    (hb : isUpperStr b = true) : isUpperStr (a ++ b) = true := by
  simp only [isUpperStr, beq_iff_eq] at *
  rw [strUpper_append, ha, hb]

lemma isLowerStr_append (a b : String) (ha : isLowerStr a = true)
    (hb : isLowerStr b = true) : isLowerStr (a ++ b) = true := by
  simp only [isLowerStr, beq_iff_eq] at *
  rw [strLower_append, ha, hb]

lemma strUpper_dot : strUpper "." = "." := rfl

lemma strUpper_nilstr : strUpper "" = "" := rfl

lemma strLower_dot : strLower "." = "." := rfl

lemma strLower_nilstr : strLower "" = "" := rfl

/-- C9: with an uppercase-normalizing platform every component of the
produced dataset name is uppercase (the whole joined name is stable
under uppercasing) regardless of input case; with a
lowercase-normalizing platform the joined name is stable under
lowercasing; for every other platform each component passes through
exactly as given, so the joined name is the plain join of the raw
effective components. -/
theorem C9_casing (platform env : String) (pi cdb csch : Option String)
    (model : DbtModel) :
    (UPPERCASE_PLATFORMS.contains (UrnMapper.init platform env pi cdb csch).platform
        = true →
      isUpperStr ((UrnMapper.init platform env pi cdb csch).get_dataset_name model)
        = true) ∧
    (LOWERCASE_PLATFORMS.contains (UrnMapper.init platform env pi cdb csch).platform
        = true →
      isLowerStr ((UrnMapper.init platform env pi cdb csch).get_dataset_name model)
        = true) ∧
    (UPPERCASE_PLATFORMS.contains (UrnMapper.init platform env pi cdb csch).platform
        = false →
      LOWERCASE_PLATFORMS.contains (UrnMapper.init platform env pi cdb csch).platform
        = false →
      (UrnMapper.init platform env pi cdb csch).get_dataset_name model =
        (if (UrnMapper.init platform env pi cdb csch).platform == "bigquery" then
          (UrnMapper.init platform env pi cdb csch).eff_database model ++ "."
            ++ (UrnMapper.init platform env pi cdb csch).eff_schema model ++ "."
            ++ model.name
         else if (UrnMapper.init platform env pi cdb csch).eff_database model == "" then
          (UrnMapper.init platform env pi cdb csch).eff_schema model ++ "." ++ model.name
         else
          (UrnMapper.init platform env pi cdb csch).eff_database model ++ "."
            ++ (UrnMapper.init platform env pi cdb csch).eff_schema model ++ "."
            ++ model.name)) := by
  refine ⟨?_, ?_, ?_⟩
  · intro h
    simp only [UrnMapper.get_dataset_name, UrnMapper.normalize_name, h, if_true]
    split_ifs <;>
      simp only [isUpperStr, beq_iff_eq, strUpper_append, strUpper_idem,
        strUpper_dot, strUpper_nilstr]
  · intro h
    have h2 : UPPERCASE_PLATFORMS.contains
        (UrnMapper.init platform env pi cdb csch).platform = false := by
      revert h
      simp only [UPPERCASE_PLATFORMS, LOWERCASE_PLATFORMS]
      cases hq : (UrnMapper.init platform env pi cdb csch).platform == "snowflake" <;>
        simp_all
    simp only [UrnMapper.get_dataset_name, UrnMapper.normalize_name, h, h2,
      Bool.false_eq_true, if_false, if_true]
    split_ifs <;>
      simp only [isLowerStr, beq_iff_eq, strLower_append, strLower_idem,
        strLower_dot, strLower_nilstr]
  · intro h1 h2
    simp only [UrnMapper.get_dataset_name, UrnMapper.normalize_name, h1, h2,
      Bool.false_eq_true, if_false]
    split_ifs <;>
      first
        | rfl
        | (rename_i h3
           rw [show (UrnMapper.init platform env pi cdb csch).eff_database model = ""
             from by simpa using h3])
        | simp_all

/-- C9 witness: `snowflake` uppercases mixed-case components, `postgres`
lowercases them, and a platform in neither set (`duckdb`) leaves the
components exactly as given. -/
theorem C9_casing_witness :
    isUpperStr ((UrnMapper.init "snowflake" "PROD" none none none).get_dataset_name
      { unique_id := "m", name := "DimCustomers", database := some "AnalyticsDb",
        schema := "Marts" }) = true ∧
    isLowerStr ((UrnMapper.init "postgres" "PROD" none none none).get_dataset_name
      { unique_id := "m", name := "DimCustomers", database := some "AnalyticsDb",
        schema := "Marts" }) = true ∧
    (UrnMapper.init "duckdb" "PROD" none none none).get_dataset_name
      { unique_id := "m", name := "DimCustomers", database := some "AnalyticsDb",
        schema := "Marts" } = "AnalyticsDb.Marts.DimCustomers" := by
  refine ⟨?_, ?_, ?_⟩
  · exact (C9_casing "snowflake" "PROD" none none none
      { unique_id := "m", name := "DimCustomers", database := some "AnalyticsDb",
        schema := "Marts" }).1 (by decide)
  · exact (C9_casing "postgres" "PROD" none none none
      { unique_id := "m", name := "DimCustomers", database := some "AnalyticsDb",
        schema := "Marts" }).2.1 (by decide)
  · have h := (C9_casing "duckdb" "PROD" none none none
      { unique_id := "m", name := "DimCustomers", database := some "AnalyticsDb",
        schema := "Marts" }).2.2 (by decide) (by decide)
    exact h.trans (by decide)

/-- C10: the mapper constructor lowercases the platform, so a mapper
built from `p` equals the mapper built from `p` lowercased, every
produced identifier is identical between the two, and the stored
platform component — the one embedded into every built urn — is always
lowercase. -/
theorem C10_platform_lowercase (platform env : String) (pi cdb csch : Option String)
    (model : DbtModel) (dataset_name : String) :
    UrnMapper.init (strLower platform) env pi cdb csch
      = UrnMapper.init platform env pi cdb csch ∧
    isLowerStr (UrnMapper.init platform env pi cdb csch).platform = true ∧
    (UrnMapper.init (strLower platform) env pi cdb csch).model_to_urn model
      = (UrnMapper.init platform env pi cdb csch).model_to_urn model ∧
    (UrnMapper.init (strLower platform) env pi cdb csch).build_urn_manual dataset_name
      = (UrnMapper.init platform env pi cdb csch).build_urn_manual dataset_name := by
  have h1 : UrnMapper.init (strLower platform) env pi cdb csch
      = UrnMapper.init platform env pi cdb csch := by
    simp [UrnMapper.init, strLower_idem]
  refine ⟨h1, ?_, by rw [h1], by rw [h1]⟩
  simpa [UrnMapper.init, isLowerStr] using strLower_idem platform

end DbtGov
